import Mathlib

/-!
Verification development for the `parrot` Korean–Japanese translation service.

The Python sources under `src/parrot` are shallowly embedded: Python `str`
values become `List Char` (named `PyStr`), Python exceptions become an
explicit `PyErr` sum surfaced through `Except`, floating-point similarity
scores become `ℚ`, and the external collaborators (Hugging Face models,
the sentence-transformer embedder, the FAISS index, the Redis store) are
passed in as explicit function parameters, exactly at the boundaries the
source code calls them.
-/

namespace Parrot

/-- Python `str`, embedded as a list of characters. -/
abbrev PyStr := List Char

/-- Python `str.lower()`. -/
def pyLower (s : PyStr) : PyStr := s.map Char.toLower

/-- Python `pat in s` (substring containment test). -/
def containsSub (s pat : PyStr) : Bool :=
  match s with
  | [] => pat.isEmpty
  | _ :: rest => pat.isPrefixOf s || containsSub rest pat

/-- Python `str.strip()`: drop leading and trailing whitespace. -/
def pyStrip (s : PyStr) : PyStr :=
  ((s.dropWhile Char.isWhitespace).reverse.dropWhile Char.isWhitespace).reverse

/-- The part of `s` strictly before the first occurrence of `pat`;
`s` itself when `pat` does not occur.  This is `s.split(pat)[0]`. -/
def beforeFirst (pat : PyStr) : PyStr → PyStr
  | [] => []
  | c :: rest => if pat.isPrefixOf (c :: rest) then [] else c :: beforeFirst pat rest

/-- One fuel-indexed step list for Python `str.replace(pat, rep)` with a
nonempty pattern: replaces every non-overlapping occurrence left to right.
The fuel argument only forces structural termination; `list_replace` below
supplies enough fuel for the whole input. -/
def list_replace_go (pat rep : PyStr) : Nat → PyStr → PyStr
  | 0, s => s
  | _ + 1, [] => []
  | fuel + 1, c :: rest =>
    if pat.isPrefixOf (c :: rest) then
      rep ++ list_replace_go pat rep fuel ((c :: rest).drop pat.length)
    else
      c :: list_replace_go pat rep fuel rest

/-- Python `s.replace(pat, rep)`.  For the empty pattern Python interleaves
`rep` around every character; the terminology table only holds nonempty
terms, and that case is embedded faithfully anyway. -/
def list_replace (s pat rep : PyStr) : PyStr :=
  match pat with
  | [] => rep ++ s.flatMap (fun c => c :: rep)
  | _ :: _ => list_replace_go pat rep s.length s

/-- Python `str.split()` with no separator: split on whitespace runs,
discarding empty fragments.  `acc` holds the current fragment reversed. -/
def splitWsGo : PyStr → PyStr → List PyStr
  | [], acc => if acc.isEmpty then [] else [acc.reverse]
  | c :: rest, acc =>
    if c.isWhitespace then
      if acc.isEmpty then splitWsGo rest [] else acc.reverse :: splitWsGo rest []
    else splitWsGo rest (c :: acc)

/-- Python `text.split()`. -/
def splitWs (s : PyStr) : List PyStr := splitWsGo s []

/-- Python `", ".join(parts)`. -/
def joinComma (parts : List PyStr) : PyStr := List.intercalate ", ".toList parts

/-- The exceptions the embedded code can raise: Python's builtin
`ValueError` and `AttributeError`, and the repository's own
`TranslationError` (src/parrot/exception/exception.py), which carries a
message and the numeric value of its `TranslationErrorCode`. -/
inductive PyErr where
  | valueError (msg : PyStr)
  | attributeError (msg : PyStr)
  | translationError (msg : PyStr) (code : Nat)
deriving DecidableEq

instance {ε α : Type} [DecidableEq ε] [DecidableEq α] : DecidableEq (Except ε α) := fun a b =>
  match a, b with
  | .ok x, .ok y => decidable_of_iff (x = y) (by simp)
  | .error x, .error y => decidable_of_iff (x = y) (by simp)
  | .ok _, .error _ => isFalse (by simp)
  | .error _, .ok _ => isFalse (by simp)

/-- `TranslationErrorCode.TRANSLATION_ERROR = 1000` (exception.py). -/
def TRANSLATION_ERROR : Nat := 1000

/-- Python `str(e)` for the embedded exceptions.  `TranslationError.__str__`
prepends `[ErrorCode …]` when an error code is set; the code renders as the
enum member's textual form in Python, abbreviated here to its numeric value
(that branch is never reached by the translate paths proved below). -/
def pyErrMsg : PyErr → PyStr
  | .valueError m => m
  | .attributeError m => m
  | .translationError m _ => "[ErrorCode TranslationErrorCode.TRANSLATION_ERROR] ".toList ++ m

/-- `config.LANGUAGE_CODES` (src/parrot/config/config.py): the supported
language names. -/
def LANGUAGE_CODES : List PyStr := ["korean".toList, "japanese".toList, "english".toList]

/-- `config.MAX_LENGTH` default (config.py, `Field(default=128, …)`). -/
def MAX_LENGTH : Nat := 128

/-- `config.REDIS_CACHE_TTL` default (config.py, `Field(default=86400, …)`). -/
def REDIS_CACHE_TTL : Nat := 86400

/-- One value of `Config.SUPPORTED_MODELS` (config.py): a mapping with
`name`, `tokenizer` and `transformer` fields. -/
structure ModelEntry where
  name : PyStr
  tokenizer : PyStr
  transformer : PyStr
deriving DecidableEq

/-- `Config.SUPPORTED_MODELS` (config.py), in source order. -/
def SUPPORTED_MODELS : List (PyStr × ModelEntry) :=
  [ ("nllb-200".toList,
      ⟨"facebook/nllb-200-distilled-600M".toList, "facebook/nllb-200-distilled-600M".toList, "seq2seqlm".toList⟩),
    ("m2m-100-1.2b".toList,
      ⟨"facebook/m2m100_1.2B".toList, "facebook/m2m100_1.2B".toList, "seq2seqlm".toList⟩),
    ("ct2fast-m2m-100_1.2b".toList,
      ⟨"michaelfeil/ct2fast-m2m100_1.2B".toList, "facebook/m2m100_1.2B".toList, "ctranslate2".toList⟩),
    ("mbart-50".toList,
      ⟨"facebook/mbart-large-50-many-to-many-mmt".toList, "facebook/mbart-large-50-many-to-many-mmt".toList, "seq2seqlm".toList⟩),
    ("qwen2.5-1.5b".toList,
      ⟨"Qwen/Qwen2.5-1.5B-Instruct".toList, "Qwen/Qwen2.5-1.5B-Instruct".toList, "causallm".toList⟩),
    ("seamless-m4t-v2-large".toList,
      ⟨"facebook/seamless-m4t-v2-large".toList, "facebook/seamless-m4t-v2-large".toList, "seamlessM4Tv2".toList⟩),
    ("hyperclova-1.5b".toList,
      ⟨"naver-hyperclovax/HyperCLOVAX-SEED-Text-Instruct-1.5B".toList, "naver-hyperclovax/HyperCLOVAX-SEED-Text-Instruct-1.5B".toList, "causallm".toList⟩),
    ("varco-8b".toList,
      ⟨"NCSOFT/Llama-VARCO-8B-Instruct".toList, "NCSOFT/Llama-VARCO-8B-Instruct".toList, "causallm".toList⟩) ]

/-! ## Terminology retriever (src/parrot/model/_translation_rag_model.py) -/

/-- One `(source_term, target_term, domain)` triple, the shape of the
entries of `self.term_pairs` built by `build_index`. -/
structure TermPair where
  source : PyStr
  target : PyStr
  domain : PyStr
deriving DecidableEq

/-- A retrieved candidate `(source_term, target_term, term_domain, score)`;
the triple is kept as a `TermPair` and the similarity score as `ℚ`. -/
abbrev Cand := TermPair × ℚ

/-- The state of a `TranslationRagModel`: the terminology table (a mapping
from domain tag to its `(source, target)` pairs, in insertion order), the
flat list fed to the FAISS index, and whether `self.faiss_index` has been
set (it starts as `None`). -/
structure RagModel where
  terminology_db : List (PyStr × List (PyStr × PyStr))
  faiss_index_built : Bool
  term_pairs : List TermPair
deriving DecidableEq

/-- `TranslationRagModel.__init__`: empty table, no index. -/
def rag_init : RagModel := ⟨[], false, []⟩

/-- The literal table assigned by `load_terminology_db`. -/
def terminology_db_table : List (PyStr × List (PyStr × PyStr)) :=
  [ ("ko2ja".toList,
      [("포카".toList, "フォトカード".toList), ("굿즈".toList, "グッズ".toList),
       ("덕질".toList, "推し活".toList), ("부캐".toList, "副垢".toList)]),
    ("ja2ko".toList,
      [("フォトカード".toList, "포카".toList), ("グッズ".toList, "굿즈".toList),
       ("推し活".toList, "덕질".toList), ("副垢".toList, "부캐".toList)]),
    ("ko2ko".toList,
      [("포카".toList, "포토카드".toList), ("굿즈".toList, "굿즈".toList),
       ("덕질".toList, "오타쿠".toList), ("부캐".toList, "부 캐릭터".toList)]) ]

/-- The `all_pairs` list accumulated by `build_index`: every
`(source_term, target_term, domain)` of the table, domains in table order. -/
def build_all_pairs (db : List (PyStr × List (PyStr × PyStr))) : List TermPair :=
  db.flatMap (fun dp => dp.2.map (fun st => ⟨st.1, st.2, dp.1⟩))

/-- `build_index`: when there is at least one term, the FAISS index is
created and `self.term_pairs` is set; with an empty table nothing happens
and `self.faiss_index` stays `None`.  Embedding and indexing of the vectors
is the external collaborators' work and carries no further state here. -/
def build_index (m : RagModel) : RagModel :=
  let all_pairs := build_all_pairs m.terminology_db
  if all_pairs.isEmpty then m
  else { m with faiss_index_built := true, term_pairs := all_pairs }

/-- `load_terminology_db`: install the literal table, then `build_index`. -/
def load_terminology_db (m : RagModel) : RagModel :=
  build_index { m with terminology_db := terminology_db_table }

/-- `get_domain_from_lang` (lines 59–70). -/
def get_domain_from_lang (source_lang target_lang : PyStr) (use_replacement : Bool) : PyStr :=
  if source_lang = "korean".toList ∧ target_lang = "japanese".toList then
    if use_replacement then "ko2ko".toList else "ko2ja".toList
  else if source_lang = "japanese".toList ∧ target_lang = "korean".toList then
    if use_replacement then "ja2ja".toList else "ja2ko".toList
  else "ko2ja".toList

/-- The embedding model plus FAISS index pair, seen from
`retrieve_terminology`: for a query word and a top-`k` bound it returns
`(score, index)` rows, the similarity scores with the positions of the
matched terms in `term_pairs`.  FAISS index handles return `Int` positions
(`-1` pads a short result). -/
def SearchOracle := PyStr → Nat → List (ℚ × Int)

/-- Python list indexing `l[idx]` with negative-index wraparound; `none`
models the `IndexError` raise, which `retrieve_terminology` would not
catch (FAISS never returns an index below `-1`, so the claims' theorems
are taken under an oracle bound that keeps indices in range). -/
def py_list_get (l : List TermPair) (idx : Int) : Option TermPair :=
  if 0 ≤ idx then l.get? idx.toNat
  else if (-idx).toNat ≤ l.length then l.get? (l.length - (-idx).toNat)
  else none

/-- The `retrieved_terms` list of `retrieve_terminology` (lines 112–129):
for every whitespace token of length ≥ 2 the oracle is queried, and every
`(score, idx)` row with `score > threshold and idx < len(term_pairs)`
whose entry passes the domain filter contributes a candidate. -/
def candidate_hits (o : SearchOracle) (term_pairs : List TermPair)
    (text : PyStr) (domain : Option PyStr) (k : Nat) (threshold : ℚ) : List Cand :=
  (splitWs text).flatMap fun word =>
    if 2 ≤ word.length then
      (o word k).filterMap fun si =>
        if threshold < si.1 ∧ si.2 < (term_pairs.length : Int) then
          match py_list_get term_pairs si.2 with
          | some tp =>
            match domain with
            | none => some (tp, si.1)
            | some d => if tp.domain = d then some (tp, si.1) else none
          | none => none
        else none
    else []

/-- One `unique_terms[key] = …` step (lines 131–136): Python dict update
keeps the key's original position, so a later higher score replaces the
stored tuple in place; an unseen key is appended. -/
def unique_insert (m : List Cand) (c : Cand) : List Cand :=
  match m.find? (fun e => e.1 = c.1) with
  | none => m ++ [c]
  | some e => if e.2 < c.2 then m.map (fun e' => if e'.1 = c.1 then c else e') else m

/-- The `unique_terms` dict after deduplicating all retrieved candidates:
keys in first-seen order, each carrying its maximum score. -/
def unique_max (cs : List Cand) : List Cand := cs.foldl unique_insert []

/-- The first-seen order of the candidate keys, made explicit. -/
def first_seen_keys (cs : List Cand) : List TermPair :=
  cs.foldl (fun acc c => if c.1 ∈ acc then acc else acc ++ [c.1]) []

/-- The comparison `sorted(…, key=lambda x: x[3], reverse=True)` sorts by:
`a` may precede `b` iff `a`'s score is at least `b`'s. -/
def scoreGe (a b : Cand) : Prop := b.2 ≤ a.2

instance : DecidableRel scoreGe := fun a b => inferInstanceAs (Decidable (b.2 ≤ a.2))

instance : IsTotal Cand scoreGe := ⟨fun a b => le_total b.2 a.2⟩

instance : IsTrans Cand scoreGe := ⟨fun _ _ _ h1 h2 => le_trans h2 h1⟩

/-- `retrieve_terminology` (lines 101–141).  Defaults in the source are
`domain=None`, `k=5`, `threshold=0.7`; call sites below pass them
explicitly.  Python's `sorted` is stable, embedded as insertion sort. -/
def retrieve_terminology (o : SearchOracle) (m : RagModel)
    (text : PyStr) (domain : Option PyStr) (k : Nat) (threshold : ℚ) : List Cand :=
  if !m.faiss_index_built then []
  else List.insertionSort scoreGe (unique_max (candidate_hits o m.term_pairs text domain k threshold))

/-- The default `threshold=0.7` of `retrieve_terminology`. -/
def RETRIEVE_THRESHOLD : ℚ := mkRat 7 10

/-- The default `k=5` of `retrieve_terminology`. -/
def RETRIEVE_K : Nat := 5

/-- `retrieve_replace_text_with_domain` (lines 143–159): replace each
retrieved source term occurring in the working text by its target term,
in retrieval-rank order, each substitution seeing the previous result. -/
def retrieve_replace_text_with_domain (o : SearchOracle) (m : RagModel)
    (text : PyStr) (domain : Option PyStr) : PyStr :=
  (retrieve_terminology o m text domain RETRIEVE_K RETRIEVE_THRESHOLD).foldl
    (fun acc c => if containsSub acc c.1.source then list_replace acc c.1.source c.1.target else acc)
    text

/-- The default `max_terms=3` of `retrieve_text_with_domain`. -/
def MAX_TERMS : Nat := 3

/-- The hint format of `retrieve_text_with_domain`:
`f"'{source}' → '{target}'"`. -/
def format_term (c : Cand) : PyStr :=
  "'".toList ++ c.1.source ++ "' → '".toList ++ c.1.target ++ "'".toList

/-- `retrieve_text_with_domain` (lines 161–183): the original text when
nothing was retrieved, otherwise the top `max_terms` matches formatted and
joined with `", "`. -/
def retrieve_text_with_domain (o : SearchOracle) (m : RagModel)
    (text : PyStr) (domain : Option PyStr) (max_terms : Nat) : PyStr :=
  let retrieved := retrieve_terminology o m text domain RETRIEVE_K RETRIEVE_THRESHOLD
  if retrieved.isEmpty then text
  else joinComma ((retrieved.take max_terms).map format_term)

/-! ## Result cache (src/parrot/cache/translation_cache.py)

The Redis collaborator is embedded as an association list from keys to
`(record, absolute expiry time)` pairs driven by an explicit clock; `setex`
stores a value with a relative TTL and replaces any value under the same
key, `get` sees a key until its expiry time and not from then on.  Python's
`time` strings become `Nat` instants. -/

/-- The `translation_data` dict stored by `save_translation`. -/
structure CacheRecord where
  original : PyStr
  translated : PyStr
  translate_time : PyStr
  cached_at : Nat
deriving DecidableEq

/-- The key-value store behind `self.redis_client`. -/
structure RedisStore where
  entries : List (PyStr × CacheRecord × Nat)
deriving DecidableEq

/-- Redis `SETEX key ttl value` at instant `now`. -/
def redis_setex (st : RedisStore) (key : PyStr) (ttl : Nat) (v : CacheRecord) (now : Nat) : RedisStore :=
  ⟨(key, v, now + ttl) :: st.entries.filter (fun e => !(e.1 = key : Bool))⟩

/-- Redis `GET key` at instant `now`: a stored value is visible strictly
before its expiry instant. -/
def redis_get (st : RedisStore) (key : PyStr) (now : Nat) : Option CacheRecord :=
  match st.entries.find? (fun e => (e.1 = key : Bool)) with
  | some e => if now < e.2.2 then some e.2.1 else none
  | none => none

/-- The default `expire_time=86400` of `TranslationCache.__init__`. -/
def CACHE_EXPIRE_TIME : Nat := 86400

/-- `TranslationCache._generate_cache_key`: `"translation:"` next to the
hex digest of the text, the digest function (`hashlib.md5`) passed in as
the collaborating hash. -/
def generate_cache_key (md5hex : PyStr → PyStr) (original_text : PyStr) : PyStr :=
  "translation:".toList ++ md5hex original_text

/-- `TranslationCache.get_translation` (lines 46–68): look the key up;
a miss returns `None`. -/
def get_translation (md5hex : PyStr → PyStr) (st : RedisStore) (now : Nat)
    (original_text : PyStr) : Option CacheRecord :=
  redis_get st (generate_cache_key md5hex original_text) now

/-- `TranslationCache.save_translation` (lines 70–104): build the record
with the server-assigned timestamp and `SETEX` it under the derived key
with the configured TTL. -/
def save_translation (md5hex : PyStr → PyStr) (expire_time : Nat) (st : RedisStore) (now : Nat)
    (original_text translated_text translate_time : PyStr) : RedisStore :=
  redis_setex st (generate_cache_key md5hex original_text) expire_time
    ⟨original_text, translated_text, translate_time, now⟩ now

/-! ## Per-family model strategies (src/parrot/model/…)

`vaidate_support_lang` lives on the abstract `TranslationModel`; the
language-to-code tables are per family.  The tokenizer-and-weights pair is
external: a strategy's generation step is a collaborator function from the
constructed prompt to either decoded output text or a raised exception. -/

/-- `TranslationModel.vaidate_support_lang` (lines 48–61 of
_translation_model.py): both languages must be in `config.LANGUAGE_CODES`,
else a `ValueError` is raised; on success the per-family codes are
returned. -/
def vaidate_support_lang (lang_code_to_id : PyStr → PyStr)
    (source_lang target_lang : PyStr) : Except PyErr (PyStr × PyStr) :=
  if ¬ source_lang ∈ LANGUAGE_CODES then
    .error (.valueError ("Unsupported source language: ".toList ++ source_lang))
  else if ¬ target_lang ∈ LANGUAGE_CODES then
    .error (.valueError ("Unsupported target language: ".toList ++ target_lang))
  else .ok (lang_code_to_id source_lang, lang_code_to_id target_lang)

/-- `HyperCLOVAXTranslationModel.lang_code_to_id`: natural-language names,
unknown input returned unchanged (`.get(lang, lang)`). -/
def hcx_lang_code_to_id (lang : PyStr) : PyStr :=
  if lang = "korean".toList then "한국어".toList
  else if lang = "japanese".toList then "일본어".toList
  else if lang = "english".toList then "영어".toList
  else lang

/-- `HyperCLOVAXTranslationModel.__init__`:
`self.max_length = min(self.max_length * 2, 1024)` over the configured
base length. -/
def hcx_max_length (base : Nat) : Nat := min (base * 2) 1024

/-- `QwenTranslationModel.__init__`:
`self.max_length = min(self.max_length * 3, 1024)`. -/
def qwen_max_length (base : Nat) : Nat := min (base * 3) 1024

/-- `VarcoTranslationModel.__init__`:
`self.max_length = min(self.max_length * 5, 8192)`. -/
def varco_max_length (base : Nat) : Nat := min (base * 5) 8192

/-- The HyperCLOVA-X chat template (lines 59–80 of
hyper_clova_x_translation_model.py) as `(role, content)` rows, contents
already `.strip()`-ed as in the source f-strings. -/
def hcx_template (source_code target_code text terminology_hint : PyStr) :
    List (PyStr × PyStr) :=
  [ ("tool_list".toList, []),
    ("system".toList,
      "당신은 ".toList ++ source_code ++ "을 ".toList ++ target_code ++
      "로 번역하는 전문 번역가입니다.".toList),
    ("user".toList,
      "1번만 번역하세요:\n\n1. ".toList ++ text ++
      "\n\n2. 참고용어: ".toList ++ terminology_hint ++
      "\n\n1번을 ".toList ++ target_code ++ "로 번역".toList) ]

/-- The decoded-output cleanup of `HyperCLOVAXTranslationModel.translate`
(lines 102–113): strip, cut at `<|endofturn|>` (stripping again), then
delete code fences with their adjacent newlines
(`re.sub(r"` ``` `[\r\n]*|[\r\n]*` ``` `", "", …)`), fuel-indexed for
structural termination. -/
def strip_fences_go : Nat → PyStr → PyStr
  | 0, s => s
  | _ + 1, [] => []
  | fuel + 1, c :: rest =>
    if "```".toList.isPrefixOf (c :: rest) then
      strip_fences_go fuel ((rest.drop 2).dropWhile (fun ch => ch = '\r' ∨ ch = '\n'))
    else if c = '\r' ∨ c = '\n' then
      let after := (c :: rest).dropWhile (fun ch => ch = '\r' ∨ ch = '\n')
      if "```".toList.isPrefixOf after then strip_fences_go fuel (after.drop 3)
      else c :: strip_fences_go fuel rest
    else c :: strip_fences_go fuel rest

/-- `re.sub` of the fence pattern over the whole decoded text. -/
def strip_fences (s : PyStr) : PyStr := strip_fences_go s.length s

/-- The post-generation decoding cleanup of HyperCLOVA-X `translate`. -/
def hcx_postprocess (s : PyStr) : PyStr :=
  let t := pyStrip s
  let t := if containsSub t "<|endofturn|>".toList then pyStrip (beforeFirst "<|endofturn|>".toList t) else t
  strip_fences t

/-- The external generation collaborator of a prompted family: chat
template in, decoded new-token text out, or a raised exception. -/
def GenCollab := List (PyStr × PyStr) → Except PyErr PyStr

/-- The `try` body of `HyperCLOVAXTranslationModel.translate` (lines
46–116): validate the loaded model and the languages (via the base-class
`super().translate`), retrieve the terminology hint, build the chat
template, call the backing `model.generate` (counted in the first
component) and post-process the decoded output. -/
def hcx_body (collab : GenCollab) (o : SearchOracle) (m : RagModel) (loaded : Bool)
    (text source_lang target_lang : PyStr) : Nat × Except PyErr PyStr :=
  if ¬ loaded then
    (0, .error (.valueError "Model not loaded. Call load_model() first.".toList))
  else
    match vaidate_support_lang hcx_lang_code_to_id source_lang target_lang with
    | .error e => (0, .error e)
    | .ok codes =>
      let terminology_hint :=
        retrieve_text_with_domain o m text
          (some (get_domain_from_lang source_lang target_lang false)) MAX_TERMS
      match collab (hcx_template codes.1 codes.2 text terminology_hint) with
      | .error e => (1, .error e)
      | .ok out => (1, .ok (hcx_postprocess out))

/-- `HyperCLOVAXTranslationModel.translate` (lines 39–125): the `try` body
above, with its `except Exception` clause re-raising everything as
`TranslationError(message=str(e), error_code=TRANSLATION_ERROR)`. -/
def hcx_translate (collab : GenCollab) (o : SearchOracle) (m : RagModel) (loaded : Bool)
    (text source_lang target_lang : PyStr) : Nat × Except PyErr PyStr :=
  match hcx_body collab o m loaded text source_lang target_lang with
  | (n, .error e) => (n, .error (.translationError (pyErrMsg e) TRANSLATION_ERROR))
  | (n, .ok s) => (n, .ok s)

/-- `NLLBTranslationModel.translate` (lines 20–80 of
nllb_translation_model.py).  Validation happens before the `try` block and
raises plain `ValueError`s; the `try` only wraps tokenization, generation
and decoding, and its `except` clause returns `f"[Error: {str(e)}]"` as
the function's normal string result.  The collaborator stands for the
whole tokenize–generate–decode pipeline on the raw input text. -/
def nllb_translate (collab : PyStr → Except PyErr PyStr) (loaded : Bool)
    (text source_lang target_lang : PyStr) : Nat × Except PyErr PyStr :=
  if ¬ loaded then
    (0, .error (.valueError "Model not loaded. Call load_model() first.".toList))
  else if ¬ source_lang ∈ LANGUAGE_CODES then
    (0, .error (.valueError ("Unsupported source language: ".toList ++ source_lang)))
  else if ¬ target_lang ∈ LANGUAGE_CODES then
    (0, .error (.valueError ("Unsupported target language: ".toList ++ target_lang)))
  else
    match collab text with
    | .error e => (1, .ok ("[Error: ".toList ++ pyErrMsg e ++ "]".toList))
    | .ok out => (1, .ok out)

/-! ## Translation façade (src/parrot/translator.py) -/

/-- The strategy classes `load_model` can instantiate. -/
inductive ModelClass where
  | nllb | m2m | mbart | hyperclova | qwen | varco
deriving DecidableEq, Inhabited

/-- The ordered keyword dispatch table of `KoreanJapaneseTranslator.load_model`
(lines 47–59): first matching keyword wins. -/
def keyword_table : List (PyStr × ModelClass) :=
  [ ("nllb".toList, .nllb), ("m2m".toList, .m2m), ("mbart".toList, .mbart),
    ("hyperclova".toList, .hyperclova), ("qwen".toList, .qwen), ("varco".toList, .varco) ]

/-- Keyword classification of a raw model-name string:
`"kw" in model_name.lower()`, first match in table order, none otherwise. -/
def classify_model_name (s : PyStr) : Option ModelClass :=
  (keyword_table.find? (fun kw => containsSub (pyLower s) kw.1)).map (fun kw => kw.2)

/-- What `model_name` holds after the registry substitution of
`load_model` (lines 42–45): a raw string, or — for `None` and for every
registered key — the `SUPPORTED_MODELS` entry, which is a dict. -/
inductive ResolvedName where
  | str (s : PyStr)
  | entry (e : ModelEntry)
deriving DecidableEq

/-- Lines 42–45 of translator.py: `None` becomes the `"nllb-200"` registry
entry, a registered key becomes its entry, anything else stays a string. -/
def resolve_model_value (model_name : Option PyStr) : ResolvedName :=
  match model_name with
  | none =>
    match SUPPORTED_MODELS.find? (fun kv => (kv.1 = "nllb-200".toList : Bool)) with
    | some kv => .entry kv.2
    | none => .str []
  | some key =>
    match SUPPORTED_MODELS.find? (fun kv => (kv.1 = key : Bool)) with
    | some kv => .entry kv.2
    | none => .str key

/-- `KoreanJapaneseTranslator.load_model` (lines 38–63), up to the external
weight loading (abstracted as succeeding when a strategy was chosen).
A dict resolved value makes `model_name.lower()` raise `AttributeError`;
a string is classified by the keyword table, with NO else branch: on no
match `self.model` simply stays unset, and only `auto_load`'s subsequent
`self.model.load_model()` call trips over `None`. -/
def load_model (model_name : Option PyStr) (auto_load : Bool) :
    Except PyErr (Option ModelClass) :=
  match resolve_model_value model_name with
  | .entry _ => .error (.attributeError "'dict' object has no attribute 'lower'".toList)
  | .str s =>
    match classify_model_name s, auto_load with
    | none, true => .error (.attributeError "'NoneType' object has no attribute 'load_model'".toList)
    | cls, true => .ok cls
    | cls, false => .ok cls

/-- `KoreanJapaneseTranslator.translate_batch` (lines 104–125): a loop
appending `self.model.translate(text, …)` results.  The first component
records which inputs were handed to `translate`, in order; an exception
propagates out of the loop, aborting the batch with no result list. -/
def translate_batch (tr : PyStr → Except PyErr PyStr) :
    List PyStr → List PyStr × Except PyErr (List PyStr)
  | [] => ([], .ok [])
  | t :: ts =>
    match tr t with
    | .error e => ([t], .error e)
    | .ok r =>
      let rest := translate_batch tr ts
      (t :: rest.1,
        match rest.2 with
        | .ok rs => .ok (r :: rs)
        | .error e => .error e)

/-! ## Soundness of the external similarity collaborator

A flat inner-product FAISS index over L2-normalized embeddings returns
cosine scores, which never exceed 1, and positions inside the indexed
`term_pairs` list (`-1` padding rows carry sentinel scores far below any
threshold and are excluded here; `build_index` indexes exactly
`term_pairs`). -/
def oracle_sound (o : SearchOracle) (term_pairs : List TermPair) (k : Nat) : Prop :=
  ∀ word si, si ∈ o word k → 0 ≤ si.2 ∧ si.2 < (term_pairs.length : Int) ∧ si.1 ≤ 1

/-! ## Sample fixtures used by the witnesses -/

/-- A concrete similarity collaborator: the query word `"포카"` matches the
indexed term 0 (`포카`, cosine 0.95) and term 4 (`フォトカード`, cosine 0.8);
other words match nothing. -/
def sample_oracle : SearchOracle := fun w _ =>
  if w = "포카".toList then [(mkRat 95 100, 0), (mkRat 8 10, 4)] else []

/-- The retriever state after `load_terminology_db`. -/
def sample_rag : RagModel := load_terminology_db rag_init

/-- A stub per-item translator for the batch witness: echoes `"T" + text`,
failing on the input `"b"`. -/
def sample_tr : PyStr → Except PyErr PyStr := fun t =>
  if t = "b".toList then .error (.valueError "inj".toList) else .ok ("T".toList ++ t)

/-- A stub generation collaborator that always raises. -/
def sample_fail_collab : GenCollab := fun _ => .error (.valueError "CUDA out of memory".toList)

end Parrot

namespace Parrot

/-! ## Theorems -/

/-- C6: `get_domain_from_lang` is a pure mapping: (korean, japanese) gives
"ko2ja" and, under the replacement flag, "ko2ko"; (japanese, korean) gives
"ja2ko" and, under the replacement flag, "ja2ja"; every other pair falls
back to "ko2ja" instead of raising. -/
theorem get_domain_from_lang_spec :
    (get_domain_from_lang "korean".toList "japanese".toList false = "ko2ja".toList) ∧
    (get_domain_from_lang "korean".toList "japanese".toList true = "ko2ko".toList) ∧
    (get_domain_from_lang "japanese".toList "korean".toList false = "ja2ko".toList) ∧
    (get_domain_from_lang "japanese".toList "korean".toList true = "ja2ja".toList) ∧
    ∀ s t u, ¬(s = "korean".toList ∧ t = "japanese".toList) →
      ¬(s = "japanese".toList ∧ t = "korean".toList) →
      get_domain_from_lang s t u = "ko2ja".toList := by
  refine ⟨by decide, by decide, by decide, by decide, ?_⟩
  intro s t u h1 h2
  unfold get_domain_from_lang
  rw [if_neg h1, if_neg h2]

/-- Witness for C6: the fallback fires on the unsupported pair
(english, korean) with the replacement flag set. -/
theorem get_domain_from_lang_spec_witness :
    get_domain_from_lang "english".toList "korean".toList true = "ko2ja".toList :=
  get_domain_from_lang_spec.2.2.2.2 "english".toList "korean".toList true
    (by decide) (by decide)

/-- C9: each causal/prompted family's effective max output length is
`min(multiplier × base, ceiling)` over the configured base length, with a
family-specific multiplier between 2 and 5 and a hard ceiling of 1024 or
8192 (HyperCLOVA-X: 2×/1024, Qwen: 3×/1024, Varco: 5×/8192); at the
default base 128 the effective lengths are 256, 384 and 640. -/
theorem causal_max_length_spec :
    (∃ mult cap, 2 ≤ mult ∧ mult ≤ 5 ∧ (cap = 1024 ∨ cap = 8192) ∧
      ∀ base, hcx_max_length base = min (mult * base) cap) ∧
    (∃ mult cap, 2 ≤ mult ∧ mult ≤ 5 ∧ (cap = 1024 ∨ cap = 8192) ∧
      ∀ base, qwen_max_length base = min (mult * base) cap) ∧
    (∃ mult cap, 2 ≤ mult ∧ mult ≤ 5 ∧ (cap = 1024 ∨ cap = 8192) ∧
      ∀ base, varco_max_length base = min (mult * base) cap) ∧
    hcx_max_length MAX_LENGTH = 256 ∧
    qwen_max_length MAX_LENGTH = 384 ∧
    varco_max_length MAX_LENGTH = 640 := by
  refine ⟨⟨2, 1024, le_refl 2, by omega, Or.inl rfl, ?_⟩,
          ⟨3, 1024, by omega, by omega, Or.inl rfl, ?_⟩,
          ⟨5, 8192, by omega, le_refl 5, Or.inr rfl, ?_⟩,
          by decide, by decide, by decide⟩ <;>
    intro base <;> simp [hcx_max_length, qwen_max_length, varco_max_length, Nat.mul_comm]

/-- C5: after `save_translation` of `(X, T, t)` at instant `now`,
`get_translation X` returns the record (whose `translated` field is `T`)
at every instant strictly before `now + expire_time` and nothing from
`now + expire_time` on; the key is derived deterministically from `X`
alone, the store holds exactly one record under that key afterwards
(overwrite, not accumulation), and the default TTL is 86400 seconds. -/
theorem cache_put_get_spec :
    ∀ (md5hex : PyStr → PyStr) (expire : Nat) (st : RedisStore) (now : Nat)
      (X T tt : PyStr) (q : Nat),
      (q < now + expire →
        get_translation md5hex (save_translation md5hex expire st now X T tt) q X
          = some ⟨X, T, tt, now⟩) ∧
      (now + expire ≤ q →
        get_translation md5hex (save_translation md5hex expire st now X T tt) q X = none) ∧
      generate_cache_key md5hex X = "translation:".toList ++ md5hex X ∧
      (save_translation md5hex expire st now X T tt).entries.countP
          (fun e => (e.1 = generate_cache_key md5hex X : Bool)) = 1 ∧
      CACHE_EXPIRE_TIME = 86400 := by
  intro md5hex expire st now X T tt q
  refine ⟨?_, ?_, rfl, ?_, rfl⟩
  · intro hq
    simp [get_translation, save_translation, redis_get, redis_setex, List.find?, hq]
  · intro hq
    simp [get_translation, save_translation, redis_get, redis_setex, List.find?]
    omega
  · simp only [save_translation, redis_setex, List.countP_cons]
    have h0 : (st.entries.filter
        (fun e => !(e.1 = generate_cache_key md5hex X : Bool))).countP
        (fun e => (e.1 = generate_cache_key md5hex X : Bool)) = 0 := by
      refine List.countP_eq_zero.mpr ?_
      intro e he
      have := (List.mem_filter.mp he).2
      simpa using this
    simp [h0]

/-- Witness for C5: a concrete put/get round trip with the identity digest,
TTL 86400.  Storing at instant 100, the record is visible at instant 86499
and gone at instant 86500. -/
theorem cache_put_get_spec_witness :
    (get_translation id (save_translation id 86400 ⟨[]⟩ 100 "안녕".toList "やあ".toList "1.2s".toList)
        86499 "안녕".toList = some ⟨"안녕".toList, "やあ".toList, "1.2s".toList, 100⟩) ∧
    (get_translation id (save_translation id 86400 ⟨[]⟩ 100 "안녕".toList "やあ".toList "1.2s".toList)
        86500 "안녕".toList = none) :=
  ⟨(cache_put_get_spec id 86400 ⟨[]⟩ 100 "안녕".toList "やあ".toList "1.2s".toList 86499).1
      (by omega),
   (cache_put_get_spec id 86400 ⟨[]⟩ 100 "안녕".toList "やあ".toList "1.2s".toList 86500).2.1
      (by omega)⟩

/-- C8: when retrieval finds nothing, `retrieve_text_with_domain` returns
the original text unchanged; otherwise it returns the top `max_terms`
matches formatted as `'source' → 'target'` pairs joined by `", "`; the
default `max_terms` is 3. -/
theorem render_hint_spec :
    ∀ (o : SearchOracle) (m : RagModel) (text : PyStr) (domain : Option PyStr) (mt : Nat),
      (retrieve_terminology o m text domain RETRIEVE_K RETRIEVE_THRESHOLD = [] →
        retrieve_text_with_domain o m text domain mt = text) ∧
      (retrieve_terminology o m text domain RETRIEVE_K RETRIEVE_THRESHOLD ≠ [] →
        retrieve_text_with_domain o m text domain mt =
          joinComma (((retrieve_terminology o m text domain RETRIEVE_K RETRIEVE_THRESHOLD).take mt).map
            format_term)) ∧
      MAX_TERMS = 3 := by
  intro o m text domain mt
  refine ⟨?_, ?_, rfl⟩
  · intro h
    simp [retrieve_text_with_domain, h]
  · intro h
    simp [retrieve_text_with_domain, List.isEmpty_iff, h]

/-- Witness for C8: with the sample oracle the hint for "포카 주세요" in
domain "ko2ja" is the formatted pair list, and for a text with no matches
the input comes back unchanged. -/
theorem render_hint_spec_witness :
    (retrieve_text_with_domain sample_oracle sample_rag "포카 주세요".toList
        (some "ko2ja".toList) 3 = "'포카' → 'フォトカード'".toList) ∧
    (retrieve_text_with_domain sample_oracle sample_rag "인사".toList
        (some "ko2ja".toList) 3 = "인사".toList) := by
  constructor
  · have h := (render_hint_spec sample_oracle sample_rag "포카 주세요".toList
      (some "ko2ja".toList) 3).2.1 (by decide)
    rw [h]; decide
  · exact (render_hint_spec sample_oracle sample_rag "인사".toList
      (some "ko2ja".toList) 3).1 (by decide)

/-- C10: while `self.faiss_index` is still `None` — the initial state, and
the state after `build_index` over an empty terminology table —
`retrieve_terminology` returns `[]` for every text, domain, `k` and
threshold instead of failing, so `retrieve_text_with_domain` and
`retrieve_replace_text_with_domain` return their input text unchanged. -/
theorem unbuilt_index_spec :
    ∀ (o : SearchOracle) (m : RagModel) (text : PyStr) (domain : Option PyStr)
      (k : Nat) (threshold : ℚ) (mt : Nat),
      m.faiss_index_built = false →
      (retrieve_terminology o m text domain k threshold = [] ∧
       retrieve_text_with_domain o m text domain mt = text ∧
       retrieve_replace_text_with_domain o m text domain = text ∧
       (build_all_pairs m.terminology_db = [] → (build_index m).faiss_index_built = false) ∧
       rag_init.faiss_index_built = false) := by
  intro o m text domain k threshold mt h
  have hr : ∀ k' th', retrieve_terminology o m text domain k' th' = [] := by
    intro k' th'
    simp [retrieve_terminology, h]
  refine ⟨hr k threshold, ?_, ?_, ?_, rfl⟩
  · simp [retrieve_text_with_domain, hr]
  · simp [retrieve_replace_text_with_domain, hr]
  · intro hdb
    simp [build_index, hdb, h]

/-- Any candidate collected by `candidate_hits` passed the strict
threshold comparison and the domain filter, and carries the score of some
oracle row. -/
theorem candidate_hits_mem_spec {o : SearchOracle} {tp : List TermPair}
    {text : PyStr} {domain : Option PyStr} {k : Nat} {threshold : ℚ} {c : Cand}
    (h : c ∈ candidate_hits o tp text domain k threshold) :
    threshold < c.2 ∧ (∀ d, domain = some d → c.1.domain = d) ∧
    ∃ w si, si ∈ o w k ∧ c.2 = si.1 := by
  simp only [candidate_hits, List.mem_flatMap] at h
  obtain ⟨w, _, hc⟩ := h
  by_cases hlen : 2 ≤ w.length
  · rw [if_pos hlen] at hc
    simp only [List.mem_filterMap] at hc
    obtain ⟨si, hsi, hg⟩ := hc
    by_cases hcond : threshold < si.1 ∧ si.2 < (tp.length : Int)
    · rw [if_pos hcond] at hg
      cases hpg : py_list_get tp si.2 with
      | none => rw [hpg] at hg; cases hg
      | some tpr =>
        rw [hpg] at hg
        dsimp only at hg
        cases domain with
        | none =>
          simp only [Option.some.injEq] at hg
          subst hg
          exact ⟨hcond.1, by simp, w, si, hsi, rfl⟩
        | some d =>
          dsimp only at hg
          by_cases hd : tpr.domain = d
          · rw [if_pos hd] at hg
            simp only [Option.some.injEq] at hg
            subst hg
            exact ⟨hcond.1, by simpa using hd, w, si, hsi, rfl⟩
          · rw [if_neg hd] at hg; cases hg
    · rw [if_neg hcond] at hg; cases hg
  · rw [if_neg hlen] at hc; cases hc

/-- Under a sound oracle every candidate's score is at most 1. -/
theorem candidate_hits_score_le_one {o : SearchOracle} {tp : List TermPair}
    {text : PyStr} {domain : Option PyStr} {k : Nat} {threshold : ℚ}
    (hs : oracle_sound o tp k) {c : Cand}
    (h : c ∈ candidate_hits o tp text domain k threshold) : c.2 ≤ 1 := by
  obtain ⟨_, _, w, si, hsi, hsc⟩ := candidate_hits_mem_spec h
  exact hsc ▸ (hs w si hsi).2.2

/-- Elements of a `unique_insert` step come from the dict or are the
inserted candidate. -/
theorem mem_unique_insert {m : List Cand} {c e : Cand}
    (h : e ∈ unique_insert m c) : e ∈ m ∨ e = c := by
  simp only [unique_insert] at h
  cases hf : m.find? (fun x => (x.1 = c.1 : Bool)) with
  | none =>
    rw [hf] at h
    dsimp only at h
    rcases List.mem_append.mp h with h1 | h1
    · exact Or.inl h1
    · exact Or.inr (by simpa using h1)
  | some e0 =>
    rw [hf] at h
    dsimp only at h
    by_cases hlt : e0.2 < c.2
    · rw [if_pos hlt] at h
      obtain ⟨e', he', heq⟩ := List.mem_map.mp h
      by_cases hk : e'.1 = c.1
      · rw [if_pos hk] at heq; exact Or.inr heq.symm
      · rw [if_neg hk] at heq; exact Or.inl (heq ▸ he')
    · rw [if_neg hlt] at h; exact Or.inl h

/-- The keys after a `unique_insert` step: unchanged when the key is
already present (in-place dict update), appended otherwise. -/
theorem unique_insert_keys (m : List Cand) (c : Cand) :
    (unique_insert m c).map (fun e => e.1)
      = if c.1 ∈ m.map (fun e => e.1) then m.map (fun e => e.1)
        else m.map (fun e => e.1) ++ [c.1] := by
  simp only [unique_insert]
  cases hf : m.find? (fun x => (x.1 = c.1 : Bool)) with
  | none =>
    have hnotin : c.1 ∉ m.map (fun e => e.1) := by
      intro hc
      obtain ⟨e, he, hk⟩ := List.mem_map.mp hc
      have := List.find?_eq_none.mp hf e he
      simp [hk] at this
    simp [hnotin]
  | some e0 =>
    dsimp only
    have he0m : e0 ∈ m := List.mem_of_find?_eq_some hf
    have he0k : e0.1 = c.1 := by simpa using List.find?_some hf
    have hin : c.1 ∈ m.map (fun e => e.1) := List.mem_map.mpr ⟨e0, he0m, he0k⟩
    by_cases hlt : e0.2 < c.2
    · rw [if_pos hlt, if_pos hin, List.map_map]
      apply List.map_congr_left
      intro e' _
      by_cases hk : e'.1 = c.1
      · simp [hk]
      · simp [hk]
    · rw [if_neg hlt, if_pos hin]

/-- `unique_insert` keeps the keys duplicate-free. -/
theorem unique_insert_nodup {m : List Cand} {c : Cand}
    (hm : (m.map (fun e => e.1)).Nodup) :
    ((unique_insert m c).map (fun e => e.1)).Nodup := by
  rw [unique_insert_keys]
  by_cases hin : c.1 ∈ m.map (fun e => e.1)
  · simpa [hin]
  · rw [if_neg hin]
    simp [List.nodup_append, hm, hin]

/-- In a list with duplicate-free keys, two members sharing a key are the
same element. -/
theorem eq_of_mem_of_key_eq {l : List Cand}
    (hn : (l.map (fun e => e.1)).Nodup)
    {a b : Cand} (ha : a ∈ l) (hb : b ∈ l) (hk : a.1 = b.1) : a = b := by
  induction l with
  | nil => cases ha
  | cons x xs ih =>
    simp only [List.map_cons, List.nodup_cons] at hn
    rcases List.mem_cons.mp ha with rfl | ha'
    · rcases List.mem_cons.mp hb with rfl | hb'
      · rfl
      · exact absurd (List.mem_map.mpr ⟨b, hb', hk.symm⟩) hn.1
    · rcases List.mem_cons.mp hb with rfl | hb'
      · exact absurd (List.mem_map.mpr ⟨a, ha', hk⟩) hn.1
      · exact ih hn.2 ha' hb'

/-- After inserting `c`, some dict entry with `c`'s key dominates `c`'s
score. -/
theorem unique_insert_self_le {m : List Cand} (_hm : (m.map (fun e => e.1)).Nodup)
    (c : Cand) : ∃ e ∈ unique_insert m c, e.1 = c.1 ∧ c.2 ≤ e.2 := by
  simp only [unique_insert]
  cases hf : m.find? (fun x => (x.1 = c.1 : Bool)) with
  | none => exact ⟨c, by simp, rfl, le_refl _⟩
  | some e0 =>
    dsimp only
    have he0m : e0 ∈ m := List.mem_of_find?_eq_some hf
    have he0k : e0.1 = c.1 := by simpa using List.find?_some hf
    by_cases hlt : e0.2 < c.2
    · rw [if_pos hlt]
      refine ⟨c, List.mem_map.mpr ⟨e0, he0m, by rw [if_pos he0k]⟩, rfl, le_refl _⟩
    · rw [if_neg hlt]
      exact ⟨e0, he0m, he0k, not_lt.mp hlt⟩

/-- A score dominator for `q` survives a `unique_insert` step. -/
theorem unique_insert_preserves_le {m : List Cand} (hm : (m.map (fun e => e.1)).Nodup)
    {q : Cand} (c : Cand) (h : ∃ e ∈ m, e.1 = q.1 ∧ q.2 ≤ e.2) :
    ∃ e ∈ unique_insert m c, e.1 = q.1 ∧ q.2 ≤ e.2 := by
  obtain ⟨e, hem, hek, hele⟩ := h
  simp only [unique_insert]
  cases hf : m.find? (fun x => (x.1 = c.1 : Bool)) with
  | none => exact ⟨e, List.mem_append.mpr (Or.inl hem), hek, hele⟩
  | some e0 =>
    dsimp only
    have he0m : e0 ∈ m := List.mem_of_find?_eq_some hf
    have he0k : e0.1 = c.1 := by simpa using List.find?_some hf
    by_cases hlt : e0.2 < c.2
    · rw [if_pos hlt]
      by_cases hk : e.1 = c.1
      · have hee0 : e = e0 := eq_of_mem_of_key_eq hm hem he0m (hk.trans he0k.symm)
        refine ⟨c, List.mem_map.mpr ⟨e, hem, by rw [if_pos hk]⟩, hk.symm ▸ hek, ?_⟩
        exact le_of_lt (lt_of_le_of_lt (hee0 ▸ hele) hlt)
      · exact ⟨e, List.mem_map.mpr ⟨e, hem, by rw [if_neg hk]⟩, hek, hele⟩
    · rw [if_neg hlt]
      exact ⟨e, hem, hek, hele⟩

/-- Key-nodup is an invariant of the dedup fold. -/
theorem foldl_unique_insert_nodup (cs : List Cand) (m : List Cand)
    (hm : (m.map (fun e => e.1)).Nodup) :
    ((cs.foldl unique_insert m).map (fun e => e.1)).Nodup := by
  induction cs generalizing m with
  | nil => simpa
  | cons c cs ih => exact ih _ (unique_insert_nodup hm)

/-- Elements of the dedup fold come from the seed dict or the candidates. -/
theorem mem_foldl_unique_insert {cs : List Cand} {m : List Cand} {e : Cand}
    (h : e ∈ cs.foldl unique_insert m) : e ∈ m ∨ e ∈ cs := by
  induction cs generalizing m with
  | nil => exact Or.inl h
  | cons c cs ih =>
    rcases ih (by simpa using h) with h1 | h1
    · rcases mem_unique_insert h1 with h2 | h2
      · exact Or.inl h2
      · exact Or.inr (by simp [h2])
    · exact Or.inr (List.mem_cons_of_mem _ h1)

/-- Every candidate (and every entry already dominated in the seed dict)
ends the fold dominated by a same-key dict entry. -/
theorem foldl_unique_insert_complete (cs : List Cand) (m : List Cand)
    (hm : (m.map (fun e => e.1)).Nodup) (q : Cand)
    (hq : q ∈ cs ∨ ∃ e ∈ m, e.1 = q.1 ∧ q.2 ≤ e.2) :
    ∃ e ∈ cs.foldl unique_insert m, e.1 = q.1 ∧ q.2 ≤ e.2 := by
  induction cs generalizing m with
  | nil =>
    rcases hq with h | h
    · cases h
    · exact h
  | cons c cs ih =>
    rw [List.foldl_cons]
    rcases hq with h | h
    · rcases List.mem_cons.mp h with rfl | h'
      · exact ih _ (unique_insert_nodup hm) (Or.inr (unique_insert_self_le hm q))
      · exact ih _ (unique_insert_nodup hm) (Or.inl h')
    · exact ih _ (unique_insert_nodup hm) (Or.inr (unique_insert_preserves_le hm c h))

/-- The `unique_terms` dict: members come from the candidates, keys are
duplicate-free, every candidate has a same-key entry carrying at least its
score, and every entry's score is maximal for its key. -/
theorem unique_max_spec (cs : List Cand) :
    (∀ e ∈ unique_max cs, e ∈ cs) ∧
    ((unique_max cs).map (fun e => e.1)).Nodup ∧
    (∀ q ∈ cs, ∃ e ∈ unique_max cs, e.1 = q.1 ∧ q.2 ≤ e.2) ∧
    (∀ e ∈ unique_max cs, ∀ q ∈ cs, q.1 = e.1 → q.2 ≤ e.2) := by
  have hnodup : ((unique_max cs).map (fun e => e.1)).Nodup :=
    foldl_unique_insert_nodup cs [] (by simp)
  have hmem : ∀ e ∈ unique_max cs, e ∈ cs := by
    intro e he
    rcases mem_foldl_unique_insert he with h | h
    · cases h
    · exact h
  have hcomp : ∀ q ∈ cs, ∃ e ∈ unique_max cs, e.1 = q.1 ∧ q.2 ≤ e.2 := by
    intro q hq
    exact foldl_unique_insert_complete cs [] (by simp) q (Or.inl hq)
  refine ⟨hmem, hnodup, hcomp, ?_⟩
  intro e he q hq hk
  obtain ⟨e', he', hk', hle'⟩ := hcomp q hq
  have : e' = e := eq_of_mem_of_key_eq hnodup he' he (hk'.trans hk)
  exact this ▸ hle'

/-- The dict keys are the candidate keys in first-seen order. -/
theorem foldl_unique_insert_keys (cs : List Cand) (m : List Cand) :
    (cs.foldl unique_insert m).map (fun e => e.1)
      = cs.foldl (fun acc c => if c.1 ∈ acc then acc else acc ++ [c.1])
          (m.map (fun e => e.1)) := by
  induction cs generalizing m with
  | nil => rfl
  | cons c cs ih => rw [List.foldl_cons, List.foldl_cons, ih, unique_insert_keys]

/-- `unique_max` lists keys in first-seen candidate order. -/
theorem unique_max_keys (cs : List Cand) :
    (unique_max cs).map (fun e => e.1) = first_seen_keys cs := by
  simpa using foldl_unique_insert_keys cs []

/-- Inserting into a list leaves each equal-score class of the list
untouched (elements walked over are strictly greater). -/
theorem orderedInsert_filter_score (a : Cand) (l : List Cand) (q : ℚ) :
    (List.orderedInsert scoreGe a l).filter (fun c => (c.2 = q : Bool))
      = if a.2 = q then a :: l.filter (fun c => (c.2 = q : Bool))
        else l.filter (fun c => (c.2 = q : Bool)) := by
  induction l with
  | nil => by_cases h : a.2 = q <;> simp [List.orderedInsert, List.filter_cons, h]
  | cons b l ih =>
    simp only [List.orderedInsert]
    by_cases hle : scoreGe a b
    · rw [if_pos hle]
      by_cases ha : a.2 = q <;> by_cases hb : b.2 = q <;>
        simp [List.filter_cons, ha, hb]
    · rw [if_neg hle]
      have hab : a.2 < b.2 := lt_of_not_le hle
      by_cases hb : b.2 = q
      · have ha : ¬ a.2 = q := by
          intro ha
          exact absurd (ha.trans hb.symm) (ne_of_lt hab)
        rw [if_neg ha] at ih ⊢
        simp [List.filter_cons, hb, ih]
      · by_cases ha : a.2 = q
        · rw [if_pos ha] at ih ⊢
          simp [List.filter_cons, hb, ih]
        · rw [if_neg ha] at ih ⊢
          simp [List.filter_cons, hb, ih]

/-- Stability of the embedded Python `sorted`: each equal-score class of
the sorted output equals that class of the input, in order. -/
theorem insertionSort_filter_score (l : List Cand) (q : ℚ) :
    (List.insertionSort scoreGe l).filter (fun c => (c.2 = q : Bool))
      = l.filter (fun c => (c.2 = q : Bool)) := by
  induction l with
  | nil => rfl
  | cons a l ih =>
    simp only [List.insertionSort]
    rw [orderedInsert_filter_score]
    by_cases h : a.2 = q
    · rw [if_pos h, ih]
      simp [List.filter_cons, h]
    · rw [if_neg h, ih]
      simp [List.filter_cons, h]

/-- C4: under the FAISS contract (valid indices, cosine scores at most 1),
`retrieve_terminology` returns exactly the matched entries: every returned
entry scored strictly above the threshold and matches the requested domain
when one is given; every matched candidate is represented by a same-key
returned entry carrying at least its score; keys are deduplicated (the
returned entry carries the maximum score for its key) and listed without
repetition; the result is sorted by score descending, with equal-score
ties kept in the dict's first-seen order (each equal-score class of the
result equals that class of the first-seen-ordered dict, whose keys are
the candidates' keys in first-seen order); and with threshold 1.1 — above
any possible cosine score — the result is empty for every input. -/
theorem retrieve_terminology_spec :
    ∀ (o : SearchOracle) (m : RagModel) (text : PyStr) (domain : Option PyStr)
      (k : Nat) (threshold : ℚ),
      oracle_sound o m.term_pairs k →
      ((m.faiss_index_built = true →
        ((∀ c ∈ retrieve_terminology o m text domain k threshold,
            threshold < c.2 ∧ (∀ d, domain = some d → c.1.domain = d) ∧
            c ∈ candidate_hits o m.term_pairs text domain k threshold ∧
            ∀ c' ∈ candidate_hits o m.term_pairs text domain k threshold,
              c'.1 = c.1 → c'.2 ≤ c.2) ∧
         (∀ c' ∈ candidate_hits o m.term_pairs text domain k threshold,
            ∃ c ∈ retrieve_terminology o m text domain k threshold,
              c.1 = c'.1 ∧ c'.2 ≤ c.2) ∧
         ((retrieve_terminology o m text domain k threshold).map (fun c => c.1)).Nodup ∧
         List.Sorted scoreGe (retrieve_terminology o m text domain k threshold) ∧
         (∀ q : ℚ, (retrieve_terminology o m text domain k threshold).filter
               (fun c => (c.2 = q : Bool))
             = (unique_max (candidate_hits o m.term_pairs text domain k threshold)).filter
               (fun c => (c.2 = q : Bool))) ∧
         (unique_max (candidate_hits o m.term_pairs text domain k threshold)).map (fun c => c.1)
           = first_seen_keys (candidate_hits o m.term_pairs text domain k threshold))) ∧
       (mkRat 11 10 ≤ threshold → retrieve_terminology o m text domain k threshold = [])) := by
  intro o m text domain k threshold hsound
  constructor
  · intro hb
    have hret : retrieve_terminology o m text domain k threshold
        = List.insertionSort scoreGe
            (unique_max (candidate_hits o m.term_pairs text domain k threshold)) := by
      simp [retrieve_terminology, hb]
    obtain ⟨humem, hunodup, hucomp, humax⟩ :=
      unique_max_spec (candidate_hits o m.term_pairs text domain k threshold)
    have hperm := List.perm_insertionSort scoreGe
      (unique_max (candidate_hits o m.term_pairs text domain k threshold))
    refine ⟨?_, ?_, ?_, ?_, ?_,
      unique_max_keys (candidate_hits o m.term_pairs text domain k threshold)⟩
    · intro c hc
      rw [hret] at hc
      have hcu := hperm.mem_iff.mp hc
      have hcc := humem c hcu
      obtain ⟨ht, hd, _⟩ := candidate_hits_mem_spec hcc
      exact ⟨ht, hd, hcc, fun c' hc' hk => humax c hcu c' hc' hk⟩
    · intro c' hc'
      obtain ⟨e, he, hk, hle⟩ := hucomp c' hc'
      exact ⟨e, by rw [hret]; exact hperm.mem_iff.mpr he, hk, hle⟩
    · rw [hret]
      exact ((hperm.map (fun c => c.1)).nodup_iff).mpr hunodup
    · rw [hret]
      exact List.sorted_insertionSort scoreGe _
    · intro q
      rw [hret]
      exact insertionSort_filter_score _ q
  · intro hth
    have hone : (1 : ℚ) < mkRat 11 10 := by decide
    have hempty : candidate_hits o m.term_pairs text domain k threshold = [] := by
      rw [List.eq_nil_iff_forall_not_mem]
      intro c hc
      have h1 := (candidate_hits_mem_spec hc).1
      have h2 := candidate_hits_score_le_one hsound hc
      linarith
    by_cases hb : m.faiss_index_built
    · simp [retrieve_terminology, hb, hempty, unique_max]
    · simp [retrieve_terminology, hb]

/-- Witness for C4: the sample oracle satisfies the FAISS contract over
the loaded terminology (12 entries), and with threshold 1.1 retrieval
returns the empty list on a concrete matching input. -/
theorem retrieve_terminology_spec_witness :
    retrieve_terminology sample_oracle sample_rag "포카 주세요".toList none 5 (mkRat 11 10)
      = [] :=
  (retrieve_terminology_spec sample_oracle sample_rag "포카 주세요".toList none 5 (mkRat 11 10)
    (by
      intro w si hsi
      simp only [sample_oracle] at hsi
      by_cases hw : w = "포카".toList
      · rw [if_pos hw] at hsi
        simp only [List.mem_cons, List.not_mem_nil, or_false] at hsi
        rcases hsi with rfl | rfl
        · exact ⟨by decide, by decide, by decide⟩
        · exact ⟨by decide, by decide, by decide⟩
      · rw [if_neg hw] at hsi
        cases hsi)).2
    (le_refl _)

/-- C3 (amended): `load_model` classifies a raw model-name string by
case-insensitive keyword substring match over the fixed ordered list
[nllb, m2m, mbart, hyperclova, qwen, varco], the first match selecting the
strategy class.  But a name matching no keyword raises no configuration
error at resolve time: with `auto_load=False` resolution completes
normally with the strategy left unset (deferring the failure to first
use), and with `auto_load=True` the immediate load attempt trips over the
unset strategy with an incidental `AttributeError` on `None`.  (For `None`
and for every *registered* key, the registry substitutes the dict-valued
entry, and `model_name.lower()` itself raises `AttributeError`.) -/
theorem load_model_resolution_spec :
    (∀ s, classify_model_name s =
      if containsSub (pyLower s) "nllb".toList then some .nllb
      else if containsSub (pyLower s) "m2m".toList then some .m2m
      else if containsSub (pyLower s) "mbart".toList then some .mbart
      else if containsSub (pyLower s) "hyperclova".toList then some .hyperclova
      else if containsSub (pyLower s) "qwen".toList then some .qwen
      else if containsSub (pyLower s) "varco".toList then some .varco
      else none) ∧
    (∀ s, SUPPORTED_MODELS.find? (fun kv => (kv.1 = s : Bool)) = none →
      classify_model_name s = none →
      load_model (some s) false = .ok none) ∧
    (∀ s, SUPPORTED_MODELS.find? (fun kv => (kv.1 = s : Bool)) = none →
      classify_model_name s = none →
      load_model (some s) true
        = .error (.attributeError "'NoneType' object has no attribute 'load_model'".toList)) ∧
    (∀ s c auto, SUPPORTED_MODELS.find? (fun kv => (kv.1 = s : Bool)) = none →
      classify_model_name s = some c →
      load_model (some s) auto = .ok (some c)) ∧
    (∀ s kv auto, SUPPORTED_MODELS.find? (fun kv' => (kv'.1 = s : Bool)) = some kv →
      load_model (some s) auto
        = .error (.attributeError "'dict' object has no attribute 'lower'".toList)) ∧
    (∀ auto, load_model none auto
      = .error (.attributeError "'dict' object has no attribute 'lower'".toList)) := by
  refine ⟨?_, ?_, ?_, ?_, ?_, ?_⟩
  · intro s
    cases h1 : containsSub (pyLower s) "nllb".toList <;>
      cases h2 : containsSub (pyLower s) "m2m".toList <;>
      cases h3 : containsSub (pyLower s) "mbart".toList <;>
      cases h4 : containsSub (pyLower s) "hyperclova".toList <;>
      cases h5 : containsSub (pyLower s) "qwen".toList <;>
      cases h6 : containsSub (pyLower s) "varco".toList <;>
      simp_all [classify_model_name, keyword_table, List.find?]
  · intro s hfind hcls
    simp [load_model, resolve_model_value, hfind, hcls]
  · intro s hfind hcls
    simp [load_model, resolve_model_value, hfind, hcls]
  · intro s c auto hfind hcls
    cases auto <;> simp [load_model, resolve_model_value, hfind, hcls]
  · intro s kv auto hfind
    cases auto <;> simp [load_model, resolve_model_value, hfind]
  · intro auto
    cases auto <;> decide

/-- Witness for C3: the raw identifier "facebook/nllb-200-distilled-600M"
classifies to the NLLB strategy via the first keyword, and an unmatched
raw name under `auto_load=True` fails only with the incidental
`AttributeError` on the unset strategy. -/
theorem load_model_resolution_spec_witness :
    classify_model_name "facebook/nllb-200-distilled-600M".toList = some .nllb ∧
    load_model (some "stub-helper".toList) true
      = .error (.attributeError "'NoneType' object has no attribute 'load_model'".toList) :=
  ⟨by rw [load_model_resolution_spec.1]; decide,
   load_model_resolution_spec.2.2.1 "stub-helper".toList (by decide) (by decide)⟩

/-- Counterexample for C3: the claim says a model name matching no keyword
makes resolution raise a fatal configuration error at resolve time rather
than deferring the failure.  At the concrete no-keyword name "stub-model"
with `auto_load=False`, `load_model` completes without raising anything —
the strategy is simply left unset (`None`), and the failure only surfaces
later, at first use of the unset model. -/
theorem load_model_no_match_counterexample :
    load_model (some "stub-model".toList) false = .ok none := by
  decide

/-- C7: `translate_batch` translates sequentially in input order —
whenever it returns a result list, every input was attempted in order and
`output[i]` is the translation of `input[i]` — and when item `i` fails
after items `0..i-1` succeeded, exactly the items up to `i` were attempted
(nothing after `i`) and the batch yields the error, not a partial list. -/
theorem translate_batch_spec :
    ∀ (tr : PyStr → Except PyErr PyStr) (texts : List PyStr),
      (∀ outs, (translate_batch tr texts).2 = .ok outs →
        (translate_batch tr texts).1 = texts ∧
        outs.length = texts.length ∧
        ∀ i (h1 : i < texts.length) (h2 : i < outs.length),
          tr (texts.get ⟨i, h1⟩) = .ok (outs.get ⟨i, h2⟩)) ∧
      (∀ i e (h : i < texts.length),
        (∀ j (hj : j < i), ∃ s, tr (texts.get ⟨j, Nat.lt_trans hj h⟩) = .ok s) →
        tr (texts.get ⟨i, h⟩) = .error e →
        translate_batch tr texts = (texts.take (i + 1), .error e)) := by
  intro tr texts
  constructor
  · induction texts with
    | nil =>
      intro outs h
      simp only [translate_batch] at h
      cases h
      simp [translate_batch]
    | cons t ts ih =>
      intro outs h
      cases htr : tr t with
      | error e => simp [translate_batch, htr] at h
      | ok r =>
        cases hrest : (translate_batch tr ts).2 with
        | error e => simp [translate_batch, htr, hrest] at h
        | ok rs =>
          have houts : outs = r :: rs := by
            simp [translate_batch, htr, hrest] at h
            exact h.symm
          subst houts
          obtain ⟨htrace, hlen, hidx⟩ := ih rs hrest
          refine ⟨by simp [translate_batch, htr, htrace], by simp [hlen], ?_⟩
          intro i h1 h2
          cases i with
          | zero => simpa using htr
          | succ n =>
            simpa using hidx n (by simpa using h1) (by simpa using h2)
  · intro i e h hok hfail
    induction texts generalizing i with
    | nil => exact absurd h (by simp)
    | cons t ts ih =>
      cases i with
      | zero =>
        have hfail0 : tr t = .error e := by simpa using hfail
        simp [translate_batch, hfail0]
      | succ n =>
        obtain ⟨s0, hs0⟩ := hok 0 (Nat.succ_pos n)
        have hs0' : tr t = .ok s0 := by simpa using hs0
        have hn : n < ts.length := by simpa using h
        have hrec := ih n hn
          (fun j hj => by simpa using hok (j + 1) (by omega))
          (by simpa using hfail)
        simp [translate_batch, hs0', hrec]

/-- Witness for C7: over `["a", "b", "c"]` with a stub that fails on
`"b"`, the batch attempts exactly `["a", "b"]` — item 3 is never tried —
and aborts with the injected error, returning no partial list. -/
theorem translate_batch_spec_witness :
    translate_batch sample_tr ["a".toList, "b".toList, "c".toList]
      = (["a".toList, "b".toList], .error (.valueError "inj".toList)) :=
  (translate_batch_spec sample_tr ["a".toList, "b".toList, "c".toList]).2
    1 (.valueError "inj".toList) (by decide)
    (fun j hj => by
      have hj0 : j = 0 := by omega
      subst hj0
      exact ⟨"Ta".toList, (by decide : sample_tr "a".toList = Except.ok "Ta".toList)⟩)
    (by decide)

/-- C2 (amended): on a loaded HyperCLOVA-X model, an unsupported source or
target language makes `translate` fail — with the repository-wide
`TranslationError` carrying the generic code 1000, wrapping the validation
`ValueError`, since no distinct `LanguageError` class exists — and the
backing `model.generate` is never invoked (call count 0). -/
theorem hcx_unsupported_lang_spec :
    ∀ (collab : GenCollab) (o : SearchOracle) (m : RagModel)
      (text source_lang target_lang : PyStr),
      (source_lang ∉ LANGUAGE_CODES ∨ target_lang ∉ LANGUAGE_CODES) →
      (hcx_translate collab o m true text source_lang target_lang).1 = 0 ∧
      ∃ msg, (hcx_translate collab o m true text source_lang target_lang).2
        = .error (.translationError msg TRANSLATION_ERROR) := by
  intro collab o m text sl tl hbad
  by_cases hs : sl ∈ LANGUAGE_CODES
  · have ht : tl ∉ LANGUAGE_CODES := by
      rcases hbad with h | h
      · exact absurd hs h
      · exact h
    have hv : vaidate_support_lang hcx_lang_code_to_id sl tl
        = .error (.valueError ("Unsupported target language: ".toList ++ tl)) := by
      simp [vaidate_support_lang, hs, ht]
    refine ⟨?_, "Unsupported target language: ".toList ++ tl, ?_⟩ <;>
      simp [hcx_translate, hcx_body, hv, pyErrMsg]
  · have hv : vaidate_support_lang hcx_lang_code_to_id sl tl
        = .error (.valueError ("Unsupported source language: ".toList ++ sl)) := by
      simp [vaidate_support_lang, hs]
    refine ⟨?_, "Unsupported source language: ".toList ++ sl, ?_⟩ <;>
      simp [hcx_translate, hcx_body, hv, pyErrMsg]

/-- Witness for C2: the unsupported source language "french" on a loaded
model leads to zero `generate` calls. -/
theorem hcx_unsupported_lang_spec_witness :
    (hcx_translate (fun _ => .ok "X".toList) sample_oracle sample_rag true
      "안녕".toList "french".toList "japanese".toList).1 = 0 :=
  (hcx_unsupported_lang_spec (fun _ => .ok "X".toList) sample_oracle sample_rag
    "안녕".toList "french".toList "japanese".toList (Or.inl (by decide))).1

/-- Counterexample for C2: the claim says an unsupported language raises a
`LanguageError`, a validation-specific error class.  The embedded
exception module (`PyErr`, from src/parrot/exception/exception.py and the
Python builtins the code raises) contains no such class: at the concrete
input "french" the loaded HyperCLOVA-X model raises `TranslationError`
with the same generic code 1000 that generation failures carry — the
catch-all wrapper swallows the validation `ValueError`. -/
theorem hcx_unsupported_lang_counterexample :
    hcx_translate (fun _ => .ok "X".toList) sample_oracle sample_rag true
        "안녕".toList "french".toList "japanese".toList
      = (0, .error (.translationError "Unsupported source language: french".toList 1000)) := by
  decide

/-- C1 (amended): the HyperCLOVA-X family (and likewise Qwen, Varco, MBart
and Seamless, which share the same catch-all structure) surfaces every
failure of its `translate` body as `TranslationError` with the stable code
1000 — in particular a generation exception is wrapped, never propagated
raw — but the NLLB family instead catches generation failures and returns
the error-describing string `"[Error: …]"` as its normal string result. -/
theorem translate_error_wrapping_spec :
    (∀ (collab : GenCollab) (o : SearchOracle) (m : RagModel) (loaded : Bool)
       (text sl tl : PyStr) (e : PyErr),
       (hcx_translate collab o m loaded text sl tl).2 = .error e →
       ∃ msg, e = .translationError msg TRANSLATION_ERROR) ∧
    (∀ (collab : GenCollab) (o : SearchOracle) (m : RagModel) (text sl tl : PyStr) (e0 : PyErr),
       sl ∈ LANGUAGE_CODES → tl ∈ LANGUAGE_CODES →
       collab (hcx_template (hcx_lang_code_to_id sl) (hcx_lang_code_to_id tl) text
         (retrieve_text_with_domain o m text
           (some (get_domain_from_lang sl tl false)) MAX_TERMS)) = .error e0 →
       hcx_translate collab o m true text sl tl
         = (1, .error (.translationError (pyErrMsg e0) TRANSLATION_ERROR))) ∧
    (∀ (collab : PyStr → Except PyErr PyStr) (text sl tl : PyStr) (e0 : PyErr),
       sl ∈ LANGUAGE_CODES → tl ∈ LANGUAGE_CODES → collab text = .error e0 →
       nllb_translate collab true text sl tl
         = (1, .ok ("[Error: ".toList ++ pyErrMsg e0 ++ "]".toList))) := by
  refine ⟨?_, ?_, ?_⟩
  · intro collab o m loaded text sl tl e h
    rcases hb : hcx_body collab o m loaded text sl tl with ⟨n, r⟩
    cases r with
    | error e' =>
      refine ⟨pyErrMsg e', ?_⟩
      simp [hcx_translate, hb] at h
      exact h.symm
    | ok s => simp [hcx_translate, hb] at h
  · intro collab o m text sl tl e0 hs ht hcollab
    have hv : vaidate_support_lang hcx_lang_code_to_id sl tl
        = .ok (hcx_lang_code_to_id sl, hcx_lang_code_to_id tl) := by
      simp [vaidate_support_lang, hs, ht]
    simp [hcx_translate, hcx_body, hv, hcollab]
  · intro collab text sl tl e0 hs ht hcollab
    simp [nllb_translate, hs, ht, hcollab]

/-- Witness for C1: a concrete generation failure is wrapped into
`TranslationError(code 1000)` by HyperCLOVA-X, while NLLB returns the
error-describing string. -/
theorem translate_error_wrapping_spec_witness :
    hcx_translate sample_fail_collab sample_oracle sample_rag true
        "안녕".toList "korean".toList "japanese".toList
      = (1, .error (.translationError "CUDA out of memory".toList 1000)) ∧
    nllb_translate (fun _ => .error (.valueError "boom".toList)) true
        "hi".toList "korean".toList "japanese".toList
      = (1, .ok "[Error: boom]".toList) :=
  ⟨translate_error_wrapping_spec.2.1 sample_fail_collab sample_oracle sample_rag
      "안녕".toList "korean".toList "japanese".toList
      (.valueError "CUDA out of memory".toList) (by decide) (by decide) rfl,
   translate_error_wrapping_spec.2.2 (fun _ => .error (.valueError "boom".toList))
      "hi".toList "korean".toList "japanese".toList
      (.valueError "boom".toList) (by decide) (by decide) rfl⟩

/-- Counterexample for C1: the claim says no model family ever returns an
error-describing string as its normal result.  At the concrete input below
the NLLB family's `translate` catches the generation exception and returns
`"[Error: boom]"` — a successful string result describing an error —
instead of raising `TranslationError`. -/
theorem nllb_error_string_counterexample :
    nllb_translate (fun _ => .error (.valueError "boom".toList)) true
        "안녕".toList "korean".toList "japanese".toList
      = (1, .ok "[Error: boom]".toList) := by
  decide

/-- Witness for C10: in the freshly constructed retriever state every
lookup is empty and both rewriting helpers are the identity on a sample
text. -/
theorem unbuilt_index_spec_witness :
    retrieve_terminology sample_oracle rag_init "포카 주세요".toList none 5 (mkRat 7 10) = [] ∧
    retrieve_text_with_domain sample_oracle rag_init "포카 주세요".toList none 3 = "포카 주세요".toList ∧
    retrieve_replace_text_with_domain sample_oracle rag_init "포카 주세요".toList none = "포카 주세요".toList ∧
    (build_all_pairs rag_init.terminology_db = [] → (build_index rag_init).faiss_index_built = false) ∧
    rag_init.faiss_index_built = false :=
  unbuilt_index_spec sample_oracle rag_init "포카 주세요".toList none 5 (mkRat 7 10) 3 rfl

end Parrot
